import Mathlib

/-!
Verification development for the personal-finance dashboard in `src/main.py`.

The program is a single-pass pipeline: a rule store (category name ->
keyword list, loaded from a JSON document), a CSV transaction loader, a
keyword-based categorizer (`categorize_transactions`), and a set of pandas
aggregations (12-month window, monthly summary, category spend, top
vendors).  Each Python function is embedded below as an executable Lean
definition over explicit data: rows are lists, dictionaries are association
lists in insertion order, pandas missing values (NaN) are `Option`, float
amounts are exact rationals, and the I/O environment (file existence, JSON
parse outcome, CSV parse outcome) is passed in as explicit data.
-/

/-- Python `str.lower()` as used on ASCII descriptions and keywords:
per-character lowercasing. -/
def lowerChars (l : List Char) : List Char := l.map Char.toLower

/-- Python `str.strip()`: remove leading and trailing whitespace. -/
def trimChars (l : List Char) : List Char :=
  ((l.dropWhile Char.isWhitespace).reverse.dropWhile Char.isWhitespace).reverse

/-- The normalization `s.lower().strip()` applied by `categorize_transactions`
to both keywords and descriptions, as a character list. -/
def normChars (s : String) : List Char := trimChars (lowerChars s.toList)

/-- Boolean prefix test on character lists. -/
def isPrefB : List Char → List Char → Bool
  | [], _ => true
  | _ :: _, [] => false
  | a :: as, b :: bs => a == b && isPrefB as bs

/-- Python's substring containment `needle in haystack` on character lists. -/
def isSubB (n : List Char) : List Char → Bool
  | [] => n.isEmpty
  | b :: bs => isPrefB n (b :: bs) || isSubB n bs

/-- A calendar date, the embedding of Python `datetime.date` values
(`Date` column after `pd.to_datetime(...).dt.date`). -/
structure Date where
  year : ℤ
  month : ℤ
  day : ℤ
deriving DecidableEq, Repr

/-- Python `datetime.date` comparison `a <= b`: lexicographic on
(year, month, day). -/
def dateLe (a b : Date) : Prop :=
  a.year < b.year ∨ (a.year = b.year ∧
    (a.month < b.month ∨ (a.month = b.month ∧ a.day ≤ b.day)))

instance : DecidablePred fun p : Date × Date => dateLe p.1 p.2 := by
  intro p; unfold dateLe; infer_instance

instance (a b : Date) : Decidable (dateLe a b) := by
  unfold dateLe; infer_instance

/-- One row of the pandas DataFrame produced by the loader: the `Date`,
`Description` and `Amount` columns, the `Category` column added by
`categorize_transactions`, and any extra pass-through columns. -/
structure Txn where
  date : Date
  description : String
  amount : ℚ
  category : String
  extra : List String
deriving DecidableEq, Repr

/-- The inner loop of `categorize_transactions`: `keyword in description`
for some keyword of the category, after lowering and stripping both sides
(`lowered_keywords` and `description = row["Description"].lower().strip()`). -/
def matchesKeywords (keywords : List String) (desc : String) : Bool :=
  keywords.any fun kw => isSubB (normChars kw) (normChars desc)

/-- The effect of one iteration of the outer category loop of
`categorize_transactions` on the `Category` value of one row: skipped
categories (named "Uncategorized" or with an empty keyword list) leave it
unchanged; otherwise a keyword match overwrites it with the category name. -/
def catStep (desc : String) (c : String) (p : String × List String) : String :=
  if p.1 = "Uncategorized" ∨ p.2 = [] then c
  else if matchesKeywords p.2 desc then p.1 else c

/-- The `Category` value a row with description `desc` holds after the whole
category loop, starting from the initialization `df["Category"] = "Uncategorized"`. -/
def finalCategoryOf (categories : List (String × List String)) (desc : String) : String :=
  categories.foldl (catStep desc) "Uncategorized"

/-- One iteration of the outer loop of `categorize_transactions` on the whole
table: `for idx, row in df.iterrows(): ... df.at[idx, "Category"] = category`. -/
def tableStep (acc : List Txn) (p : String × List String) : List Txn :=
  if p.1 = "Uncategorized" ∨ p.2 = [] then acc
  else acc.map fun t =>
    if matchesKeywords p.2 t.description then { t with category := p.1 } else t

/-- `categorize_transactions(df, categories)` from `src/main.py`: initialize
every row's `Category` to "Uncategorized", then fold the category loop over
the rule set in its (insertion) iteration order. -/
def categorize_transactions (df : List Txn) (categories : List (String × List String)) :
    List Txn :=
  categories.foldl tableStep (df.map fun t => { t with category := "Uncategorized" })

theorem foldl_tableStep_eq (categories : List (String × List String)) :
    ∀ l : List Txn, categories.foldl tableStep l =
      l.map fun t => { t with category := categories.foldl (catStep t.description) t.category } := by
  induction categories with
  | nil => intro l; simp
  | cons p cats ih =>
    intro l
    simp only [List.foldl_cons]
    by_cases hskip : p.1 = "Uncategorized" ∨ p.2 = []
    · rw [show tableStep l p = l by simp [tableStep, hskip]]
      rw [ih l]
      refine List.map_congr_left fun t _ => ?_
      simp [catStep, hskip]
    · rw [show tableStep l p =
        l.map (fun t => if matchesKeywords p.2 t.description then
          { t with category := p.1 } else t) by simp [tableStep, hskip]]
      rw [ih]
      rw [List.map_map]
      refine List.map_congr_left fun t _ => ?_
      by_cases hm : matchesKeywords p.2 t.description
      · simp [Function.comp, hm, catStep, hskip]
      · simp [Function.comp, hm, catStep, hskip]

/-- `categorize_transactions` acts row-wise: each output row is the input row
with its `Category` replaced by `finalCategoryOf`. -/
theorem categorize_eq_map (df : List Txn) (categories : List (String × List String)) :
    categorize_transactions df categories =
      df.map fun t => { t with category := finalCategoryOf categories t.description } := by
  rw [categorize_transactions, foldl_tableStep_eq, List.map_map]
  rfl

/-- A rule-set entry has no effect on a row with description `desc` if it is
skipped (named "Uncategorized" or empty keyword list) or no keyword matches. -/
def noEffect (p : String × List String) (desc : String) : Prop :=
  p.1 = "Uncategorized" ∨ p.2 = [] ∨ matchesKeywords p.2 desc = false

theorem catStep_of_noEffect {p : String × List String} {desc c : String}
    (h : noEffect p desc) : catStep desc c p = c := by
  rcases h with h | h | h
  · simp [catStep, h]
  · simp [catStep, h]
  · by_cases hskip : p.1 = "Uncategorized" ∨ p.2 = []
    · simp [catStep, hskip]
    · simp [catStep, hskip, h]

theorem foldl_catStep_of_noEffect {desc : String} :
    ∀ {l : List (String × List String)} {c : String},
      (∀ p ∈ l, noEffect p desc) → l.foldl (catStep desc) c = c := by
  intro l
  induction l with
  | nil => intro c _; rfl
  | cons p cats ih =>
    intro c h
    rw [List.foldl_cons, catStep_of_noEffect (h p (List.mem_cons_self p cats))]
    exact ih fun q hq => h q (List.mem_cons_of_mem p hq)

theorem foldl_catStep_eq_uncat (desc : String) :
    ∀ (cats : List (String × List String)) (c : String),
      cats.foldl (catStep desc) c = "Uncategorized" ↔
        (c = "Uncategorized" ∧ ∀ p ∈ cats, noEffect p desc) := by
  intro cats
  induction cats with
  | nil => intro c; simp
  | cons p cats ih =>
    intro c
    rw [List.foldl_cons, ih]
    by_cases hskip : p.1 = "Uncategorized" ∨ p.2 = []
    · have hstep : catStep desc c p = c := by simp [catStep, hskip]
      rw [hstep]
      simp only [List.forall_mem_cons]
      have hne : noEffect p desc := Or.elim hskip Or.inl fun h => Or.inr (Or.inl h)
      tauto
    · push_neg at hskip
      by_cases hm : matchesKeywords p.2 desc
      · have hstep : catStep desc c p = p.1 := by simp [catStep, hskip, hm]
        rw [hstep]
        simp only [List.forall_mem_cons]
        have hnoeff : ¬ noEffect p desc := by
          unfold noEffect
          push_neg
          exact ⟨hskip.1, hskip.2, by simp [hm]⟩
        constructor
        · rintro ⟨h1, _⟩; exact absurd h1 hskip.1
        · rintro ⟨_, h2, _⟩; exact absurd h2 hnoeff
      · have hstep : catStep desc c p = c := by simp [catStep, hskip, hm]
        rw [hstep]
        simp only [List.forall_mem_cons]
        have hne : noEffect p desc := by
          unfold noEffect
          exact Or.inr (Or.inr (by simpa using hm))
        tauto

theorem noEffect_iff (p : String × List String) (desc : String) :
    noEffect p desc ↔
      (p.1 ≠ "Uncategorized" →
        ∀ kw ∈ p.2, isSubB (normChars kw) (normChars desc) = false) := by
  unfold noEffect matchesKeywords
  rw [List.any_eq_false]
  constructor
  · rintro (h | h | h) hne
    · exact absurd h hne
    · intro kw hkw; rw [h] at hkw; cases hkw
    · intro kw hkw; simpa using h kw hkw
  · intro h
    by_cases hA : p.1 = "Uncategorized"
    · exact Or.inl hA
    · exact Or.inr (Or.inr (fun kw hkw => by simpa using h hA kw hkw))

theorem not_overwrite_iff (p : String × List String) (desc : String) :
    ¬(p.1 ≠ "Uncategorized" ∧ p.2 ≠ [] ∧ matchesKeywords p.2 desc = true) ↔
      noEffect p desc := by
  unfold noEffect
  simp only [← Bool.not_eq_true]
  tauto

/-- Example transaction used to instantiate the categorizer theorems. -/
def exTxn : Txn :=
  { date := { year := 2024, month := 1, day := 5 }, description := "Best COFFEE Shop "
    amount := -9/2, category := "", extra := ["memo"] }

/-- Example one-row table used to instantiate the categorizer theorems. -/
def exDf : List Txn := [exTxn]

/-- C1: if category `cname` is the last entry of the rule set (in iteration
order) that is not named "Uncategorized", has a non-empty keyword list, and
has a keyword occurring in the transaction's lowercased, trimmed description,
then after `categorize_transactions` that transaction's final category is
`cname`, regardless of earlier matches: every later entry either is skipped
or fails to match, and later matches would unconditionally overwrite. -/
theorem c1_last_matching_category_wins
    (df : List Txn) (pre post : List (String × List String))
    (cname : String) (kws : List String) (i : ℕ) (t : Txn)
    (hget : df[i]? = some t)
    (hC : cname ≠ "Uncategorized") (hne : kws ≠ [])
    (hmatch : matchesKeywords kws t.description = true)
    (hpost : ∀ p ∈ post,
      ¬(p.1 ≠ "Uncategorized" ∧ p.2 ≠ [] ∧ matchesKeywords p.2 t.description = true)) :
    ∃ u, (categorize_transactions df (pre ++ (cname, kws) :: post))[i]? = some u ∧
      u.category = cname := by
  rw [categorize_eq_map, List.getElem?_map, hget]
  refine ⟨_, rfl, ?_⟩
  show finalCategoryOf _ t.description = cname
  unfold finalCategoryOf
  rw [List.foldl_append, List.foldl_cons]
  rw [show catStep t.description _ (cname, kws) = cname by
    simp [catStep, hC, hne, hmatch]]
  exact foldl_catStep_of_noEffect fun p hp => (not_overwrite_iff p t.description).mp (hpost p hp)

theorem c1_witness :
    ∃ u, (categorize_transactions exDf
        ([("Dining", ["coffee"])] ++ ("Cafe", ["shop"]) :: [("Rent", ["rent"])]))[0]? =
          some u ∧ u.category = "Cafe" :=
  c1_last_matching_category_wins exDf [("Dining", ["coffee"])] [("Rent", ["rent"])]
    "Cafe" ["shop"] 0 exTxn rfl (by decide) (by decide) (by decide) (by decide)

/-- C2: after `categorize_transactions` a transaction's final category is
"Uncategorized" exactly when no keyword of any rule-set entry other than the
reserved "Uncategorized" entry (whose own keywords are never used for
matching) occurs as a substring of the lowercased, trimmed description. -/
theorem c2_uncategorized_iff_no_match
    (df : List Txn) (cats : List (String × List String)) (i : ℕ) (t : Txn)
    (hget : df[i]? = some t) :
    ∃ u, (categorize_transactions df cats)[i]? = some u ∧
      (u.category = "Uncategorized" ↔
        ∀ p ∈ cats, p.1 ≠ "Uncategorized" →
          ∀ kw ∈ p.2, isSubB (normChars kw) (normChars t.description) = false) := by
  rw [categorize_eq_map, List.getElem?_map, hget]
  refine ⟨_, rfl, ?_⟩
  show finalCategoryOf cats t.description = "Uncategorized" ↔ _
  unfold finalCategoryOf
  rw [foldl_catStep_eq_uncat]
  simp only [noEffect_iff, true_and]

theorem c2_witness :
    ∃ u, (categorize_transactions exDf
        [("Dining", ["burger"]), ("Uncategorized", ["shop"])])[0]? = some u ∧
      (u.category = "Uncategorized" ↔
        ∀ p ∈ [("Dining", ["burger"]), ("Uncategorized", ["shop"])],
          p.1 ≠ "Uncategorized" →
            ∀ kw ∈ p.2, isSubB (normChars kw) (normChars exTxn.description) = false) :=
  c2_uncategorized_iff_no_match exDf
    [("Dining", ["burger"]), ("Uncategorized", ["shop"])] 0 exTxn rfl

/-- C9: `categorize_transactions` modifies only the `Category` field — the
output table has the same number of rows, in the same order, and every row's
date, description, amount and extra pass-through columns are unchanged. -/
theorem c9_categorize_frame (df : List Txn) (cats : List (String × List String)) :
    (categorize_transactions df cats).length = df.length ∧
    ∀ i : ℕ,
      ((categorize_transactions df cats)[i]?.map fun t =>
        (t.date, t.description, t.amount, t.extra)) =
      (df[i]?.map fun t => (t.date, t.description, t.amount, t.extra)) := by
  rw [categorize_eq_map]
  refine ⟨List.length_map df _, fun i => ?_⟩
  rw [List.getElem?_map]
  cases df[i]? <;> rfl

/-- `today.replace(day=1)` from `main()`: the first day of today's month. -/
def first_day_of_month (today : Date) : Date := { today with day := 1 }

/-- `pd.Timestamp(first_day_this_month) - pd.DateOffset(months=11)` applied
to a first-of-month timestamp, converted back to a date: the first day of
the calendar month 11 months before today's month. -/
def startDate (today : Date) : Date :=
  if today.month = 12 then { year := today.year, month := 1, day := 1 }
  else { year := today.year - 1, month := today.month + 1, day := 1 }

/-- The index of a date's calendar month on the integer time line; two dates
have equal `monthIdx` exactly when `to_period("M")` sends them to the same
month period. -/
def monthIdx (d : Date) : ℤ := d.year * 12 + (d.month - 1)

/-- `df_last12 = df[(df["Date"] >= start_date) & (df["Date"] <= end_date)]`
with `end_date = today`, from `main()`. -/
def windowFilter (df : List Txn) (today : Date) : List Txn :=
  df.filter fun t => decide (dateLe (startDate today) t.date) && decide (dateLe t.date today)

/-- C8: the aggregation window is the closed interval from the first day of
today's month minus 11 months up to today: the window's start is a
first-of-month date whose month index is 11 below today's month, and a
transaction survives the window filter exactly when its date lies between
that start date and today (inclusive). -/
theorem c8_window_is_last_12_months (today : Date) (df : List Txn)
    (h1 : 1 ≤ today.month) (h2 : today.month ≤ 12) :
    ((startDate today).day = 1 ∧
      monthIdx (startDate today) = monthIdx (first_day_of_month today) - 11) ∧
    ∀ t : Txn, t ∈ windowFilter df today ↔
      (t ∈ df ∧ dateLe (startDate today) t.date ∧ dateLe t.date today) := by
  constructor
  · unfold startDate monthIdx first_day_of_month
    by_cases h : today.month = 12
    · simp [h]
    · simp [h]; omega
  · intro t
    rw [windowFilter, List.mem_filter]
    simp [decide_eq_true_eq, and_assoc]

theorem c8_witness :
    (((startDate { year := 2024, month := 3, day := 15 }).day = 1 ∧
      monthIdx (startDate { year := 2024, month := 3, day := 15 }) =
        monthIdx (first_day_of_month { year := 2024, month := 3, day := 15 }) - 11) ∧
    ∀ t : Txn, t ∈ windowFilter exDf { year := 2024, month := 3, day := 15 } ↔
      (t ∈ exDf ∧ dateLe (startDate { year := 2024, month := 3, day := 15 }) t.date ∧
        dateLe t.date { year := 2024, month := 3, day := 15 })) :=
  c8_window_is_last_12_months { year := 2024, month := 3, day := 15 } exDf
    (by decide) (by decide)

/-- The state of the persisted rule document when `main()` starts:
`absent` when `os.path.exists(category_file)` is false, `corrupt` when the
file exists but is not valid JSON, `wellFormed rules` when `json.load`
yields the mapping `rules`. -/
inductive RuleDoc where
  | absent : RuleDoc
  | corrupt : RuleDoc
  | wellFormed : List (String × List String) → RuleDoc
deriving DecidableEq

/-- The rule-loading prologue of `main()`: the `os.path.exists` guard covers
only a missing file; `json.load` is not wrapped in any try/except, so a
corrupt document raises `json.JSONDecodeError`, which propagates out of
`main()` (modelled as `Except.error`). -/
def loadCategories : RuleDoc → Except String (List (String × List String))
  | .absent => .ok [("Uncategorized", [])]
  | .corrupt => .error "json.decoder.JSONDecodeError: Expecting value"
  | .wellFormed rules => .ok rules

/-- C5 counterexample: on a corrupt rule document the code does not return
the default rule set (or any rule set at all) — the JSON parse error
propagates and the session fails. -/
theorem c5_counterexample :
    loadCategories RuleDoc.corrupt =
        Except.error "json.decoder.JSONDecodeError: Expecting value" ∧
      ¬ loadCategories RuleDoc.corrupt = Except.ok [("Uncategorized", [])] :=
  ⟨rfl, fun h => Except.noConfusion h⟩

/-- C5 amended: a missing rule document is recoverable — the default rule set
mapping "Uncategorized" to no keywords is returned — and a well-formed
document yields the persisted mapping; but a corrupt document is not
recoverable: the parse error propagates instead of falling back. -/
theorem c5_rule_store_load :
    loadCategories RuleDoc.absent = Except.ok [("Uncategorized", [])] ∧
    (∀ rules, loadCategories (RuleDoc.wellFormed rules) = Except.ok rules) ∧
    ∃ msg, loadCategories RuleDoc.corrupt = Except.error msg :=
  ⟨rfl, fun _ => rfl, ⟨_, rfl⟩⟩

/-- Reverse order on ℤ, used for `sort_values("MonthPeriod", ascending=False)`. -/
def intGE (a b : ℤ) : Prop := b ≤ a

instance : DecidableRel intGE := fun a b => inferInstanceAs (Decidable (b ≤ a))

instance : IsTotal ℤ intGE := ⟨fun a b => le_total b a⟩

instance : IsTrans ℤ intGE := ⟨fun _ _ _ h h2 => le_trans h2 h⟩

/-- The credits entry the pandas Series
`summary_df[summary_df["Amount"] > 0].groupby("MonthPeriod")["Amount"].sum()`
holds at month `m`: `none` when the month has no positive-amount row (pandas
alignment then yields NaN), otherwise the sum of the month's positive amounts. -/
def monthCredits (df : List Txn) (m : ℤ) : Option ℚ :=
  let xs := df.filter fun t => decide (0 < t.amount) && decide (monthIdx t.date = m)
  if xs = [] then none else some ((xs.map Txn.amount).sum)

/-- The debits entry `summary_df[summary_df["Amount"] < 0].groupby(...)["Amount"].sum().abs()`
holds at month `m`: `none` when the month has no negative-amount row,
otherwise the absolute value of the sum of the month's negative amounts. -/
def monthDebits (df : List Txn) (m : ℤ) : Option ℚ :=
  let xs := df.filter fun t => decide (t.amount < 0) && decide (monthIdx t.date = m)
  if xs = [] then none else some |(xs.map Txn.amount).sum|

/-- The index of `pd.DataFrame(Credits := credits, Debits := debits)` after
`sort_values("MonthPeriod", ascending=False)`: the union of the months
carrying a credits entry and those carrying a debits entry — i.e. the
distinct months with a nonzero-amount transaction — most recent first. -/
def summaryMonths (df : List Txn) : List ℤ :=
  List.insertionSort intGE
    (((df.filter fun t => decide (t.amount ≠ 0)).map fun t => monthIdx t.date).dedup)

/-- One row of the Monthly Summary table: `none` in `credits`/`debits` is the
NaN pandas puts where the DataFrame index has no entry from the respective
Series, and `net` is the NaN-propagating `Credits - Debits`. -/
structure MRow where
  month : ℤ
  credits : Option ℚ
  debits : Option ℚ
  net : Option ℚ
deriving DecidableEq, Repr

/-- Pandas subtraction `monthly_sum["Credits"] - monthly_sum["Debits"]`:
NaN (here `none`) as soon as either operand is missing. -/
def netOf : Option ℚ → Option ℚ → Option ℚ
  | some c, some d => some (c - d)
  | _, _ => none

/-- The Monthly Summary table of `main()` (Table 1): one row per month of
`summaryMonths`, with the aligned credits and debits entries and the
NaN-propagating net change. -/
def monthly_sum (df : List Txn) : List MRow :=
  (summaryMonths df).map fun m =>
    { month := m, credits := monthCredits df m, debits := monthDebits df m
      net := netOf (monthCredits df m) (monthDebits df m) }

/-- The spec's formula for a month's credits: sum of the month's positive
amounts, 0 when there are none. -/
def creditsSpec (df : List Txn) (m : ℤ) : ℚ :=
  ((df.filter fun t => decide (0 < t.amount) && decide (monthIdx t.date = m)).map Txn.amount).sum

/-- The spec's formula for a month's debits: absolute value of the sum of the
month's negative amounts, 0 when there are none. -/
def debitsSpec (df : List Txn) (m : ℤ) : ℚ :=
  |((df.filter fun t => decide (t.amount < 0) && decide (monthIdx t.date = m)).map Txn.amount).sum|

/-- Claim C3 as stated, at a given (already windowed) table: every summary
row's net equals the spec's credits minus debits for its month, and the
months appearing as rows are exactly the distinct months of the table's
transactions. -/
def C3Statement (df : List Txn) : Prop :=
  (∀ r ∈ monthly_sum df, r.net = some (creditsSpec df r.month - debitsSpec df r.month)) ∧
  ((monthly_sum df).map MRow.month).dedup.Perm ((df.map fun t => monthIdx t.date).dedup)

/-- Concrete table refuting C3: January 2024 has a single credit (so its
Debits and Net Change are NaN, not 0 and 1000), and February 2024 has only a
zero-amount transaction (so it is a distinct month of the table yet absent
from the summary). -/
def cexDf : List Txn :=
  [{ date := { year := 2024, month := 1, day := 5 }, description := "Paycheck"
     amount := 1000, category := "Uncategorized", extra := [] },
   { date := { year := 2024, month := 2, day := 10 }, description := "ZeroTxn"
     amount := 0, category := "Uncategorized", extra := [] }]

/-- C3 counterexample: on `cexDf` the monthly summary's only row has a
missing net (NaN), not credits minus debits, and the row months miss
February 2024. -/
theorem c3_counterexample : ¬ C3Statement cexDf := by
  intro h
  have h2 := (h.2).length_eq
  have e1 : ((monthly_sum cexDf).map MRow.month).dedup = [24288] := rfl
  have e2 : ((cexDf.map fun t => monthIdx t.date).dedup) = [24288, 24289] := rfl
  rw [e1, e2] at h2
  simp at h2

theorem mem_summaryMonths (df : List Txn) (x : ℤ) :
    x ∈ summaryMonths df ↔ ∃ t ∈ df, t.amount ≠ 0 ∧ monthIdx t.date = x := by
  unfold summaryMonths
  rw [(List.perm_insertionSort intGE _).mem_iff, List.mem_dedup, List.mem_map]
  constructor
  · rintro ⟨t, ht, rfl⟩
    rw [List.mem_filter] at ht
    exact ⟨t, ht.1, by simpa using ht.2, rfl⟩
  · rintro ⟨t, ht, hne, heq⟩
    exact ⟨t, List.mem_filter.mpr ⟨ht, by simpa using hne⟩, heq⟩

/-- C3 amended: a monthly summary row's net change equals credits minus
debits whenever the month carries both a credits and a debits entry; when
either side is missing (NaN) the net is missing as well; and the months
appearing as rows are exactly the distinct calendar months of the windowed
transactions of nonzero amount. -/
theorem c3_amended_monthly_summary (df : List Txn) :
    (∀ r ∈ monthly_sum df, ∀ c d : ℚ, r.credits = some c → r.debits = some d →
        r.net = some (c - d)) ∧
    (∀ r ∈ monthly_sum df, (r.credits = none ∨ r.debits = none) → r.net = none) ∧
    (∀ m : ℤ, m ∈ (monthly_sum df).map MRow.month ↔
        ∃ t ∈ df, t.amount ≠ 0 ∧ monthIdx t.date = m) := by
  refine ⟨?_, ?_, ?_⟩
  · intro r hr c d hc hd
    rw [monthly_sum, List.mem_map] at hr
    obtain ⟨m, _, rfl⟩ := hr
    change monthCredits df m = some c at hc
    change monthDebits df m = some d at hd
    show netOf (monthCredits df m) (monthDebits df m) = some (c - d)
    rw [hc, hd]
    rfl
  · intro r hr h
    rw [monthly_sum, List.mem_map] at hr
    obtain ⟨m, _, rfl⟩ := hr
    show netOf (monthCredits df m) (monthDebits df m) = none
    rcases h with h | h
    · change monthCredits df m = none at h
      rw [h]
      rfl
    · change monthDebits df m = none at h
      rw [h]
      cases monthCredits df m <;> rfl
  · intro m
    rw [monthly_sum, List.map_map]
    have hcomp : (MRow.month ∘ fun m : ℤ =>
        ({ month := m, credits := monthCredits df m, debits := monthDebits df m
           net := netOf (monthCredits df m) (monthDebits df m) } : MRow)) = id := rfl
    rw [hcomp, List.map_id]
    exact mem_summaryMonths df m

/-- C10: inside the summary, a month having a credit transaction but no
debit transaction gets a row whose Debits entry is missing (NaN, not 0) and
whose Net Change is therefore missing as well; symmetrically, a month having
a debit but no credit gets a missing Credits entry and a missing Net Change. -/
theorem c10_one_sided_month_has_nan (df : List Txn) (m : ℤ) :
    ((∃ t ∈ df, monthIdx t.date = m ∧ 0 < t.amount) →
      (∀ t ∈ df, monthIdx t.date = m → ¬ t.amount < 0) →
      ∃ r ∈ monthly_sum df, r.month = m ∧ (∃ c, r.credits = some c) ∧
        r.debits = none ∧ r.net = none) ∧
    ((∃ t ∈ df, monthIdx t.date = m ∧ t.amount < 0) →
      (∀ t ∈ df, monthIdx t.date = m → ¬ 0 < t.amount) →
      ∃ r ∈ monthly_sum df, r.month = m ∧ r.credits = none ∧
        (∃ d, r.debits = some d) ∧ r.net = none) := by
  constructor
  · rintro ⟨t, ht, htm, htpos⟩ hnodeb
    have hmem : m ∈ summaryMonths df :=
      (mem_summaryMonths df m).mpr ⟨t, ht, ne_of_gt htpos, htm⟩
    refine ⟨_, List.mem_map.mpr ⟨m, hmem, rfl⟩, rfl, ?_, ?_, ?_⟩
    · have hne : (df.filter fun u => decide (0 < u.amount) && decide (monthIdx u.date = m)) ≠ [] := by
        intro hnil
        have := List.filter_eq_nil.mp hnil t ht
        simp [htpos, htm] at this
      show ∃ c, monthCredits df m = some c
      rw [monthCredits]
      simp only [if_neg hne]
      exact ⟨_, rfl⟩
    · show monthDebits df m = none
      rw [monthDebits]
      have hnil : (df.filter fun u => decide (u.amount < 0) && decide (monthIdx u.date = m)) = [] := by
        rw [List.filter_eq_nil]
        intro u hu
        simp only [Bool.and_eq_true, decide_eq_true_eq, not_and]
        intro hneg hm
        exact absurd hneg (hnodeb u hu hm)
      simp only [if_pos hnil]
    · show netOf (monthCredits df m) (monthDebits df m) = none
      have hdeb : monthDebits df m = none := by
        rw [monthDebits]
        have hnil : (df.filter fun u => decide (u.amount < 0) && decide (monthIdx u.date = m)) = [] := by
          rw [List.filter_eq_nil]
          intro u hu
          simp only [Bool.and_eq_true, decide_eq_true_eq, not_and]
          intro hneg hm
          exact absurd hneg (hnodeb u hu hm)
        simp only [if_pos hnil]
      rw [hdeb]
      cases monthCredits df m <;> rfl
  · rintro ⟨t, ht, htm, htneg⟩ hnocred
    have hmem : m ∈ summaryMonths df :=
      (mem_summaryMonths df m).mpr ⟨t, ht, ne_of_lt htneg, htm⟩
    have hcred : monthCredits df m = none := by
      rw [monthCredits]
      have hnil : (df.filter fun u => decide (0 < u.amount) && decide (monthIdx u.date = m)) = [] := by
        rw [List.filter_eq_nil]
        intro u hu
        simp only [Bool.and_eq_true, decide_eq_true_eq, not_and]
        intro hpos hm
        exact absurd hpos (hnocred u hu hm)
      simp only [if_pos hnil]
    refine ⟨_, List.mem_map.mpr ⟨m, hmem, rfl⟩, rfl, hcred, ?_, ?_⟩
    · have hne : (df.filter fun u => decide (u.amount < 0) && decide (monthIdx u.date = m)) ≠ [] := by
        intro hnil
        have := List.filter_eq_nil.mp hnil t ht
        simp [htneg, htm] at this
      show ∃ d, monthDebits df m = some d
      rw [monthDebits]
      simp only [if_neg hne]
      exact ⟨_, rfl⟩
    · show netOf (monthCredits df m) (monthDebits df m) = none
      rw [hcred]
      rfl

/-- Transaction used to instantiate the one-sided-month theorem. -/
def wTxn : Txn :=
  { date := { year := 2024, month := 5, day := 2 }, description := "Paycheck"
    amount := 1200, category := "Income", extra := [] }

/-- One-row table whose only month has a credit and no debit. -/
def wDf : List Txn := [wTxn]

theorem c10_witness :
    ∃ r ∈ monthly_sum wDf, r.month = 24292 ∧ (∃ c, r.credits = some c) ∧
      r.debits = none ∧ r.net = none :=
  (c10_one_sided_month_has_nan wDf 24292).1
    ⟨wTxn, by decide, by decide, by decide⟩ (by decide)

theorem sum_map_ite_of_mem {β : Type} [DecidableEq β] (v : ℚ) :
    ∀ (cs : List β) (b : β), cs.Nodup → b ∈ cs →
      (cs.map fun c => if b = c then v else 0).sum = v := by
  intro cs
  induction cs with
  | nil => intro b _ hb; cases hb
  | cons c cs ih =>
    intro b hnd hb
    rw [List.map_cons, List.sum_cons]
    by_cases hbc : b = c
    · subst hbc
      rw [if_pos rfl]
      have hzero : (cs.map fun x => if b = x then v else 0).sum = 0 := by
        apply List.sum_eq_zero
        intro x hx
        obtain ⟨y, hy, rfl⟩ := List.mem_map.mp hx
        have : b ≠ y := fun h => (List.nodup_cons.mp hnd).1 (h ▸ hy)
        rw [if_neg this]
      rw [hzero, add_zero]
    · rw [if_neg hbc, zero_add]
      exact ih b (List.nodup_cons.mp hnd).2 ((List.mem_cons.mp hb).resolve_left hbc)

theorem sum_map_add_distrib {β : Type} (g h : β → ℚ) :
    ∀ l : List β, (l.map fun c => g c + h c).sum = (l.map g).sum + (l.map h).sum := by
  intro l
  induction l with
  | nil => simp
  | cons c l ih => simp [ih]; ring

/-- Summing groupby fibers over a duplicate-free covering key list gives the
total sum: the groupby of `main()` partitions the debit rows. -/
theorem sum_fiber {α β : Type} [DecidableEq β] (key : α → β) (f : α → ℚ) :
    ∀ (l : List α) (cs : List β), cs.Nodup → (∀ x ∈ l, key x ∈ cs) →
      (cs.map fun c => ((l.filter fun x => decide (key x = c)).map f).sum).sum =
        (l.map f).sum := by
  intro l
  induction l with
  | nil =>
    intro cs _ _
    simp
  | cons x l ih =>
    intro cs hnd hcov
    have hstep : (cs.map fun c =>
        (((x :: l).filter fun y => decide (key y = c)).map f).sum) =
        cs.map fun c => (if key x = c then f x else 0) +
          ((l.filter fun y => decide (key y = c)).map f).sum := by
      refine List.map_congr_left fun c _ => ?_
      by_cases hxc : key x = c
      · rw [List.filter_cons, if_pos (by simpa using hxc), List.map_cons, List.sum_cons,
          if_pos hxc]
      · rw [List.filter_cons, if_neg (by simpa using hxc), if_neg hxc, zero_add]
    rw [hstep, sum_map_add_distrib,
      sum_map_ite_of_mem (f x) cs (key x) hnd (hcov x (List.mem_cons_self x l)),
      ih cs hnd fun y hy => hcov y (List.mem_cons_of_mem x hy),
      List.map_cons, List.sum_cons]

theorem sum_nonpos_of_forall_nonpos :
    ∀ l : List ℚ, (∀ x ∈ l, x ≤ 0) → l.sum ≤ 0 := by
  intro l
  induction l with
  | nil => intro _; simp
  | cons a l ih =>
    intro h
    rw [List.sum_cons]
    exact add_nonpos (h a (List.mem_cons_self a l))
      (ih fun x hx => h x (List.mem_cons_of_mem a hx))

theorem abs_sum_of_forall_nonpos :
    ∀ l : List ℚ, (∀ x ∈ l, x ≤ 0) → |l.sum| = (l.map abs).sum := by
  intro l
  induction l with
  | nil => intro _; simp
  | cons a l ih =>
    intro h
    have ha : a ≤ 0 := h a (List.mem_cons_self a l)
    have hl : ∀ x ∈ l, x ≤ 0 := fun x hx => h x (List.mem_cons_of_mem a hx)
    rw [List.sum_cons, List.map_cons, List.sum_cons,
      abs_of_nonpos (add_nonpos ha (sum_nonpos_of_forall_nonpos l hl)), neg_add,
      ← abs_of_nonpos ha, ← abs_of_nonpos (sum_nonpos_of_forall_nonpos l hl), ih hl]

/-- The Spending by Category data of `main()` (Chart 1):
`pie_df = df_last12[df_last12["Amount"] < 0]` grouped by `Category`, summed
and made absolute.  The groupby fibers and sums are modelled exactly; the
order pandas lists the group keys in (sorted ascending) is irrelevant to the
stated properties, so the distinct keys are taken in first-occurrence order. -/
def categorySpend (df : List Txn) : List (String × ℚ) :=
  ((df.filter fun t => decide (t.amount < 0)).map Txn.category).dedup.map fun c =>
    (c, |(((df.filter fun t => decide (t.amount < 0)).filter fun t =>
        decide (t.category = c)).map Txn.amount).sum|)

/-- C6: the category-spend totals sum to the total absolute amount of all
debit transactions in the window, and the aggregation is a pure function of
its input, so re-running it yields the same totals. -/
theorem c6_category_spend_conservation (df : List Txn) :
    ((categorySpend df).map Prod.snd).sum =
      ((df.filter fun t => decide (t.amount < 0)).map fun t => |t.amount|).sum ∧
    categorySpend df = categorySpend df := by
  refine ⟨?_, rfl⟩
  rw [categorySpend, List.map_map]
  have hpt : ∀ c : String,
      (Prod.snd ∘ fun c => (c, |(((df.filter fun t => decide (t.amount < 0)).filter fun t =>
        decide (t.category = c)).map Txn.amount).sum|)) c =
      ((((df.filter fun t => decide (t.amount < 0)).filter fun t =>
        decide (t.category = c)).map fun t => |t.amount|)).sum := by
    intro c
    show |(((df.filter fun t => decide (t.amount < 0)).filter fun t =>
        decide (t.category = c)).map Txn.amount).sum| = _
    rw [abs_sum_of_forall_nonpos, List.map_map]
    · rfl
    · intro x hx
      obtain ⟨t, ht, rfl⟩ := List.mem_map.mp hx
      have := (List.mem_filter.mp (List.mem_filter.mp ht).1).2
      exact le_of_lt (by simpa using this)
  rw [List.map_congr_left fun c _ => hpt c]
  exact sum_fiber Txn.category (fun t => |t.amount|)
    (df.filter fun t => decide (t.amount < 0)) _
    (List.nodup_dedup _)
    (fun x hx => List.mem_dedup.mpr (List.mem_map.mpr ⟨x, hx, rfl⟩))

/-- Reverse order by amount on vendor rows, used for
`sort_values(by="Amount", ascending=False)`. -/
def vendGE (a b : String × ℚ) : Prop := b.2 ≤ a.2

instance : DecidableRel vendGE := fun a b => inferInstanceAs (Decidable (b.2 ≤ a.2))

instance : IsTotal (String × ℚ) vendGE := ⟨fun a b => le_total b.2 a.2⟩

instance : IsTrans (String × ℚ) vendGE := ⟨fun _ _ _ h h2 => le_trans h2 h⟩

/-- The Top Vendors table of `main()` (Table 2):
`vendor_df = df_last12[df_last12["Amount"] < 0]`, grouped by `Description`
with `["Amount"].sum().abs()`, then sorted descending by amount.  The
groupby fibers and sums are modelled exactly; pandas lists group keys in
sorted order before the final amount sort, which only fixes the relative
order of equal-amount rows, left unspecified by the spec — the distinct
keys are taken in first-occurrence order and sorted with a total
non-increasing comparison on the amount. -/
def vendorRows (df : List Txn) : List (String × ℚ) :=
  List.insertionSort vendGE
    (((df.filter fun t => decide (t.amount < 0)).map Txn.description).dedup.map fun d =>
      (d, |(((df.filter fun t => decide (t.amount < 0)).filter fun t =>
          decide (t.description = d)).map Txn.amount).sum|))

/-- C7: the top-vendor rows are sorted non-increasingly by total absolute
debit amount, every row's amount is the total absolute debit amount of its
description, no description appears twice, and a description appears exactly
when it has at least one debit transaction in the window. -/
theorem c7_top_vendors (df : List Txn) :
    List.Sorted vendGE (vendorRows df) ∧
    ((vendorRows df).map Prod.fst).Nodup ∧
    (∀ d : String, d ∈ (vendorRows df).map Prod.fst ↔
      ∃ t ∈ df, t.amount < 0 ∧ t.description = d) ∧
    ∀ p ∈ vendorRows df,
      p.2 = |(((df.filter fun t => decide (t.amount < 0)).filter fun t =>
          decide (t.description = p.1)).map Txn.amount).sum| := by
  have hperm : (vendorRows df).Perm
      (((df.filter fun t => decide (t.amount < 0)).map Txn.description).dedup.map fun d =>
        (d, |(((df.filter fun t => decide (t.amount < 0)).filter fun t =>
            decide (t.description = d)).map Txn.amount).sum|)) :=
    List.perm_insertionSort vendGE _
  have hfst : ((((df.filter fun t => decide (t.amount < 0)).map Txn.description).dedup.map
      fun d => (d, |(((df.filter fun t => decide (t.amount < 0)).filter fun t =>
          decide (t.description = d)).map Txn.amount).sum|)).map Prod.fst) =
      ((df.filter fun t => decide (t.amount < 0)).map Txn.description).dedup := by
    rw [List.map_map]
    exact List.map_id _
  refine ⟨List.sorted_insertionSort vendGE _, ?_, ?_, ?_⟩
  · rw [(hperm.map Prod.fst).nodup_iff, hfst]
    exact List.nodup_dedup _
  · intro d
    rw [(hperm.map Prod.fst).mem_iff, hfst, List.mem_dedup, List.mem_map]
    constructor
    · rintro ⟨t, ht, rfl⟩
      have := List.mem_filter.mp ht
      exact ⟨t, this.1, by simpa using this.2, rfl⟩
    · rintro ⟨t, ht, hneg, heq⟩
      exact ⟨t, List.mem_filter.mpr ⟨ht, by simpa using hneg⟩, heq⟩
  · intro p hp
    obtain ⟨d, _, rfl⟩ := List.mem_map.mp (hperm.mem_iff.mp hp)
    rfl

/-- Python `col.strip()` as applied to the CSV column headers, producing a
string (kernel-computable, unlike `String.trim`). -/
def stripStr (s : String) : String := String.mk (trimChars s.toList)

/-- The outcome of `pd.read_csv(file)` on a well-formed delimited file:
trimmable column headers and the data rows' cells.  A file `read_csv`
rejects (malformed CSV) is modelled as the absence of a `Frame`. -/
structure Frame where
  header : List String
  rows : List (List String)
deriving DecidableEq, Repr

/-- Python `s.split(c)` on character lists, accumulator form. -/
def splitAux (c : Char) : List Char → List Char → List (List Char)
  | [], acc => [acc.reverse]
  | x :: xs, acc =>
    if x = c then acc.reverse :: splitAux c xs [] else splitAux c xs (x :: acc)

/-- Python `s.split(c)`: the maximal `c`-free segments, empty ones included. -/
def splitOnCharL (c : Char) (l : List Char) : List (List Char) := splitAux c l []

/-- A non-empty all-digit character list read as a decimal number. -/
def digitsToNat (l : List Char) : Option ℕ :=
  if l ≠ [] ∧ l.all Char.isDigit
  then some (l.foldl (fun n c => 10 * n + (c.toNat - 48)) 0) else none

/-- Gregorian leap year, as validated by the `%m/%d/%Y` date parser. -/
def isLeap (y : ℕ) : Bool := (y % 4 == 0 && y % 100 != 0) || y % 400 == 0

/-- Days in a month, as validated by the `%m/%d/%Y` date parser. -/
def daysInMonth (y m : ℕ) : ℕ :=
  if m = 2 then (if isLeap y then 29 else 28)
  else if m = 4 ∨ m = 6 ∨ m = 9 ∨ m = 11 then 30 else 31

/-- `pd.to_datetime(cell, format="%m/%d/%Y")` on one cell: three
slash-separated fields, month and day of at most two digits, a four-digit
year, and a valid calendar date; anything else raises (here `none`). -/
def parseDateMDY (s : String) : Option Date :=
  match splitOnCharL '/' s.toList with
  | [ms, ds, ys] =>
    match digitsToNat ms, digitsToNat ds, digitsToNat ys with
    | some m, some d, some y =>
      if ms.length ≤ 2 ∧ ds.length ≤ 2 ∧ ys.length = 4 ∧
          1 ≤ m ∧ m ≤ 12 ∧ 1 ≤ d ∧ d ≤ daysInMonth y m
      then some { year := (y : ℤ), month := (m : ℤ), day := (d : ℤ) }
      else none
    | _, _, _ => none
  | _ => none

/-- `df["Date"] = pd.to_datetime(df["Date"], format="%m/%d/%Y")` over the
whole column: every cell must parse, else the whole conversion raises. -/
def parseDates (di : ℕ) : List (List String) → Option (List Date)
  | [] => some []
  | r :: rs =>
    match parseDateMDY (r.getD di ""), parseDates di rs with
    | some d, some ds => some (d :: ds)
    | _, _ => none

/-- The rule-set entries the category loop does not skip: not named
"Uncategorized" and with a non-empty keyword list.  `categorize_transactions`
reads `row["Description"]` exactly when at least one such entry exists and
the table has at least one row. -/
def activeCats (cats : List (String × List String)) : List (String × List String) :=
  cats.filter fun p => !(decide (p.1 = "Uncategorized" ∨ p.2 = []))

/-- One row of the table `load_transactions` returns: the parsed date, the
raw cells of the CSV row (all columns passed through), and the `Category`
value assigned by `categorize_transactions`. -/
structure LRow where
  date : Date
  cells : List String
  category : String
deriving DecidableEq, Repr


/-- `load_transactions(file, categories)` from `src/main.py`.  The whole body
runs in one `try`: a malformed file (`raw = none`), a missing `Date` column
after header stripping, an unparseable date cell, or (inside
`categorize_transactions`) a `row["Description"]` access with no
`Description` column all raise, are caught by the single `except`, and
surface one message (`st.error`) with no table (`Except.error`).  The
`Amount` column is never read here.  On success the full categorized table
is returned. -/
def load_transactions : Option Frame → List (String × List String) → Except String (List LRow)
  | none, _ => Except.error "Error processing file: malformed CSV"
  | some fr, cats =>
    match (fr.header.map stripStr).findIdx? (fun s => s == "Date") with
    | none => Except.error "Error processing file: KeyError Date"
    | some di =>
      match parseDates di fr.rows with
      | none => Except.error "Error processing file: time data does not match format"
      | some ds =>
        match (fr.header.map stripStr).findIdx? (fun s => s == "Description") with
        | some dj => Except.ok ((ds.zip fr.rows).map fun p =>
            { date := p.1, cells := p.2, category := finalCategoryOf cats (p.2.getD dj "") })
        | none =>
          if activeCats cats = [] ∨ fr.rows = [] then
            Except.ok ((ds.zip fr.rows).map fun p =>
              { date := p.1, cells := p.2, category := "Uncategorized" })
          else Except.error "Error processing file: KeyError Description"
theorem parseDates_eq_none (di : ℕ) :
    ∀ rows : List (List String), parseDates di rows = none ↔
      ∃ r ∈ rows, parseDateMDY (r.getD di "") = none := by
  intro rows
  induction rows with
  | nil =>
    constructor
    · intro h; exact absurd h (by rw [parseDates]; simp)
    · rintro ⟨r, hr, _⟩; cases hr
  | cons r rs ih =>
    rw [parseDates]
    cases hr : parseDateMDY (r.getD di "") with
    | none =>
      constructor
      · intro _; exact ⟨r, List.mem_cons_self r rs, hr⟩
      · intro _; rfl
    | some d =>
      cases hrs : parseDates di rs with
      | none =>
        constructor
        · intro _
          obtain ⟨x, hx, hnone⟩ := ih.mp hrs
          exact ⟨x, List.mem_cons_of_mem r hx, hnone⟩
        · intro _; rfl
      | some ds =>
        constructor
        · intro h; exact absurd h (by simp)
        · rintro ⟨x, hx, hnone⟩
          rcases List.mem_cons.mp hx with rfl | hx
          · exact Option.noConfusion (hr.symm.trans hnone)
          · exact absurd (ih.mpr ⟨x, hx, hnone⟩) (by rw [hrs]; simp)

theorem parseDates_length (di : ℕ) :
    ∀ (rows : List (List String)) (ds : List Date),
      parseDates di rows = some ds → ds.length = rows.length := by
  intro rows
  induction rows with
  | nil =>
    intro ds h
    rw [parseDates] at h
    injection h with h
    subst h
    rfl
  | cons r rs ih =>
    intro ds h
    rw [parseDates] at h
    cases hr : parseDateMDY (r.getD di "") with
    | none => rw [hr] at h; cases h
    | some d =>
      rw [hr] at h
      cases hrs : parseDates di rs with
      | none => rw [hrs] at h; cases h
      | some ds2 =>
        rw [hrs] at h
        injection h with h
        subst h
        simp [ih ds2 hrs]


/-- CSV frame with `Date` and `Description` columns but no `Amount` column. -/
def cFrame : Frame :=
  { header := ["Date", "Description"], rows := [["01/02/2024", "Coffee"]] }

/-- C4 counterexample: on `cFrame`, a file whose required `Amount` column is
missing after header trimming, the load does not fail — it returns a full
categorized table, because `load_transactions` never reads the `Amount`
column. -/
theorem c4_counterexample :
    ("Amount" ∉ cFrame.header.map stripStr) ∧
    load_transactions (some cFrame) [("Uncategorized", [])] =
      Except.ok [{ date := { year := 2024, month := 1, day := 2 }
                   cells := ["01/02/2024", "Coffee"], category := "Uncategorized" }] := by
  constructor
  · decide
  · rfl

/-- C4 amended: the load fails atomically — one error message, no table —
exactly when the file is malformed, the `Date` column is missing after header
trimming, some `Date` cell does not parse as MM/DD/YYYY, or the `Description`
column is missing while the rule set has an active category and the file has
at least one data row; a missing `Amount` column does not fail the load.
Otherwise the full categorized table is returned: one row per input row with
its cells passed through and its category computed from its `Description`
cell. -/
theorem c4_amended_load_fails_atomically (fr : Frame) (cats : List (String × List String)) :
    ((∃ msg, load_transactions (some fr) cats = Except.error msg) ↔
      ((fr.header.map stripStr).findIdx? (fun s => s == "Date") = none
        ∨ (∃ di, (fr.header.map stripStr).findIdx? (fun s => s == "Date") = some di ∧
            ∃ r ∈ fr.rows, parseDateMDY (r.getD di "") = none)
        ∨ ((fr.header.map stripStr).findIdx? (fun s => s == "Description") = none ∧
            activeCats cats ≠ [] ∧ fr.rows ≠ []))) ∧
    (∀ out, load_transactions (some fr) cats = Except.ok out →
      out.length = fr.rows.length ∧ out.map LRow.cells = fr.rows ∧
      ∀ dj, (fr.header.map stripStr).findIdx? (fun s => s == "Description") = some dj →
        out.map LRow.category = fr.rows.map fun r => finalCategoryOf cats (r.getD dj "")) ∧
    (∃ msg, load_transactions none cats = Except.error msg) := by
  refine ⟨?_, ?_, ⟨_, rfl⟩⟩
  · cases hdi : (fr.header.map stripStr).findIdx? (fun s => s == "Date") with
    | none =>
      have hload : load_transactions (some fr) cats =
          Except.error "Error processing file: KeyError Date" := by
        simp only [load_transactions, hdi]
      rw [hload]
      exact ⟨fun _ => Or.inl rfl, fun _ => ⟨_, rfl⟩⟩
    | some di =>
      cases hds : parseDates di fr.rows with
      | none =>
        have hload : load_transactions (some fr) cats =
            Except.error "Error processing file: time data does not match format" := by
          simp only [load_transactions, hdi, hds]
        rw [hload]
        exact ⟨fun _ => Or.inr (Or.inl ⟨di, rfl, (parseDates_eq_none di fr.rows).mp hds⟩),
          fun _ => ⟨_, rfl⟩⟩
      | some ds =>
        cases hdj : (fr.header.map stripStr).findIdx? (fun s => s == "Description") with
        | some dj =>
          have hload : load_transactions (some fr) cats =
              Except.ok ((ds.zip fr.rows).map fun p =>
                { date := p.1, cells := p.2
                  category := finalCategoryOf cats (p.2.getD dj "") }) := by
            simp only [load_transactions, hdi, hds, hdj]
          rw [hload]
          constructor
          · rintro ⟨msg, h⟩
            cases h
          · rintro (h | ⟨di2, hdi2, r, hr, hnone⟩ | ⟨h, _, _⟩)
            · cases h
            · injection hdi2 with h2
              subst h2
              have hc := (parseDates_eq_none di fr.rows).mpr ⟨r, hr, hnone⟩
              rw [hds] at hc
              cases hc
            · cases h
        | none =>
          by_cases hact : activeCats cats = [] ∨ fr.rows = []
          · have hload : load_transactions (some fr) cats =
                Except.ok ((ds.zip fr.rows).map fun p =>
                  { date := p.1, cells := p.2, category := "Uncategorized" }) := by
              simp only [load_transactions, hdi, hds, hdj]
              rw [if_pos hact]
            rw [hload]
            constructor
            · rintro ⟨msg, h⟩
              cases h
            · rintro (h | ⟨di2, hdi2, r, hr, hnone⟩ | ⟨_, h1, h2⟩)
              · cases h
              · injection hdi2 with h2
                subst h2
                have hc := (parseDates_eq_none di fr.rows).mpr ⟨r, hr, hnone⟩
                rw [hds] at hc
                cases hc
              · rcases hact with hA | hA
                · exact absurd hA h1
                · exact absurd hA h2
          · have hload : load_transactions (some fr) cats =
                Except.error "Error processing file: KeyError Description" := by
              simp only [load_transactions, hdi, hds, hdj]
              rw [if_neg hact]
            rw [hload]
            push_neg at hact
            exact ⟨fun _ => Or.inr (Or.inr ⟨rfl, hact.1, hact.2⟩), fun _ => ⟨_, rfl⟩⟩
  · intro out hout
    cases hdi : (fr.header.map stripStr).findIdx? (fun s => s == "Date") with
    | none =>
      rw [show load_transactions (some fr) cats =
          Except.error "Error processing file: KeyError Date" by
        simp only [load_transactions, hdi]] at hout
      cases hout
    | some di =>
      cases hds : parseDates di fr.rows with
      | none =>
        rw [show load_transactions (some fr) cats =
            Except.error "Error processing file: time data does not match format" by
          simp only [load_transactions, hdi, hds]] at hout
        cases hout
      | some ds =>
        have hlen : fr.rows.length ≤ ds.length :=
          le_of_eq (parseDates_length di fr.rows ds hds).symm
        cases hdj : (fr.header.map stripStr).findIdx? (fun s => s == "Description") with
        | some dj =>
          rw [show load_transactions (some fr) cats =
              Except.ok ((ds.zip fr.rows).map fun p =>
                { date := p.1, cells := p.2
                  category := finalCategoryOf cats (p.2.getD dj "") }) by
            simp only [load_transactions, hdi, hds, hdj]] at hout
          injection hout with hout
          subst hout
          refine ⟨?_, ?_, ?_⟩
          · rw [List.length_map, List.length_zip, parseDates_length di fr.rows ds hds]
            exact min_self _
          · rw [List.map_map]
            rw [show (LRow.cells ∘ fun p : Date × List String =>
                ({ date := p.1, cells := p.2
                   category := finalCategoryOf cats (p.2.getD dj "") } : LRow)) = Prod.snd
              from rfl]
            exact List.map_snd_zip ds fr.rows hlen
          · intro dj2 hdj2
            injection hdj2 with h2
            subst h2
            rw [List.map_map]
            rw [show (LRow.category ∘ fun p : Date × List String =>
                ({ date := p.1, cells := p.2
                   category := finalCategoryOf cats (p.2.getD dj "") } : LRow)) =
              ((fun r => finalCategoryOf cats (r.getD dj "")) ∘ Prod.snd) from rfl]
            rw [← List.map_map, List.map_snd_zip ds fr.rows hlen]
        | none =>
          by_cases hact : activeCats cats = [] ∨ fr.rows = []
          · rw [show load_transactions (some fr) cats =
                Except.ok ((ds.zip fr.rows).map fun p =>
                  { date := p.1, cells := p.2, category := "Uncategorized" }) by
              simp only [load_transactions, hdi, hds, hdj]
              rw [if_pos hact]] at hout
            injection hout with hout
            subst hout
            refine ⟨?_, ?_, ?_⟩
            · rw [List.length_map, List.length_zip, parseDates_length di fr.rows ds hds]
              exact min_self _
            · rw [List.map_map]
              rw [show (LRow.cells ∘ fun p : Date × List String =>
                  ({ date := p.1, cells := p.2, category := "Uncategorized" } : LRow)) =
                Prod.snd from rfl]
              exact List.map_snd_zip ds fr.rows hlen
            · intro dj2 hdj2
              cases hdj2
          · rw [show load_transactions (some fr) cats =
                Except.error "Error processing file: KeyError Description" by
              simp only [load_transactions, hdi, hds, hdj]
              rw [if_neg hact]] at hout
            cases hout
